import Mathlib

/-!
Shallow embedding of the browser video generator component
(`VideoGenerator.tsx`): the color utilities, the easing library, the frame
renderer `drawFrame` as an emitter of a trace of 2D-canvas operations, a
small concrete pixel interpreter for such traces, and the recording-session
state machine (`startRecording`, `stopRecording`, and the data-available
handler). Numbers are modelled as exact rationals; the platform `Math.sin`
is modelled as an explicit function parameter (a fixed deterministic
platform function).
-/

namespace VideoGen

/-- Source `clamp(n, min, max) = Math.max(min, Math.min(max, n))`. -/
def clamp (n mn mx : ℚ) : ℚ := max mn (min mx n)

/-- The closed set of animation variants. -/
inductive AnimationType where
  | fade
  | slide
  | zoom
  | typewriter
deriving DecidableEq

/-- The settings record read by the renderer. -/
structure Settings where
  width : ℕ
  height : ℕ
  fps : ℕ
  durationSeconds : ℚ
  background : String
  textColor : String
  text : String
  fontSize : ℕ
  animation : AnimationType
deriving DecidableEq

/-- The source's `DEFAULTS` settings value. -/
def DEFAULTS : Settings where
  width := 720
  height := 1280
  fps := 60
  durationSeconds := 6
  background := "#0c1326"
  textColor := "#e7ecff"
  text := "Hello, world!\nThis video was generated entirely in your browser."
  fontSize := 48
  animation := .fade

/-- An RGB triple as returned by `hexToRgb`. -/
structure Rgb where
  r : ℕ
  g : ℕ
  b : ℕ
deriving DecidableEq

/-- Membership in the regex character class `[a-f\d]` under the `i` flag:
a decimal digit, `a`-`f`, or `A`-`F`. -/
def isHexAF (c : Char) : Bool :=
  (48 ≤ c.toNat && c.toNat ≤ 57) || (97 ≤ c.toNat && c.toNat ≤ 102) ||
    (65 ≤ c.toNat && c.toNat ≤ 70)

/-- Value of one hex digit character, as `parseInt(-, 16)` assigns it. -/
def hexVal (c : Char) : ℕ :=
  if 48 ≤ c.toNat && c.toNat ≤ 57 then c.toNat - 48
  else if 97 ≤ c.toNat then c.toNat - 87
  else c.toNat - 55

/-- Value of a captured two-hex-digit group under `parseInt(-, 16)`. -/
def hexPair (a b : Char) : ℕ := 16 * hexVal a + hexVal b

/-- Consuming the regex's optional leading `#?`. -/
def stripHash : List Char → List Char
  | '#' :: rest => rest
  | l => l

/-- Matching the regex body `([a-f\d]{2})([a-f\d]{2})([a-f\d]{2})$` and
building the parsed channels; any non-match yields `{r:0, g:0, b:0}`. -/
def parseHexBody : List Char → Rgb
  | [a, b, c, d, e, f] =>
      if isHexAF a && isHexAF b && isHexAF c && isHexAF d && isHexAF e && isHexAF f
      then ⟨hexPair a b, hexPair c d, hexPair e f⟩
      else ⟨0, 0, 0⟩
  | _ => ⟨0, 0, 0⟩

/-- Whether the regex body matches after the optional `#` is consumed. -/
def matchesBody : List Char → Bool
  | [a, b, c, d, e, f] =>
      isHexAF a && isHexAF b && isHexAF c && isHexAF d && isHexAF e && isHexAF f
  | _ => false

/-- Source `hexToRgb`: match `/^#?([a-f\d]{2})([a-f\d]{2})([a-f\d]{2})$/i`
(the `#` is optional in the source regex); a non-match yields
`{r:0, g:0, b:0}`. -/
def hexToRgb (s : String) : Rgb := parseHexBody (stripHash s.data)

/-- The actual acceptance predicate of `hexToRgb`'s regex: `#RRGGBB`
case-insensitively, with the leading `#` optional. -/
def matchesOptHexForm (s : String) : Bool := matchesBody (stripHash s.data)

/-- JS `n.toString(16)` for a natural number (lowercase hex digits). -/
def natToHexStr (n : ℕ) : String := ⟨Nat.toDigits 16 n⟩

/-- JS `padStart(2, '0')`. -/
def padStart2 (s : String) : String :=
  if 2 ≤ s.length then s else ⟨List.replicate (2 - s.length) '0' ++ s.data⟩

/-- Source `toHex(n) = n.toString(16).padStart(2, '0')`. -/
def toHex (n : ℕ) : String := padStart2 (natToHexStr n)

/-- Source `rgbToHex(r, g, b)`. -/
def rgbToHex (r g b : ℕ) : String := "#" ++ toHex r ++ toHex g ++ toHex b

/-- JS `Math.round` for the values arising here: `⌊q + 1/2⌋`. -/
def jsRound (q : ℚ) : ℤ := ⌊q + 1/2⌋

/-- Source `shade(hex, percent)`: scale each channel by
`(100 + percent)/100`, round, clamp to `[0, 255]`, and re-encode. -/
def shade (hex : String) (percent : ℚ) : String :=
  let c := hexToRgb hex
  let t := (100 + percent) / 100
  let rr := (max 0 (min 255 (jsRound ((c.r : ℚ) * t)))).toNat
  let gg := (max 0 (min 255 (jsRound ((c.g : ℚ) * t)))).toNat
  let bb := (max 0 (min 255 (jsRound ((c.b : ℚ) * t)))).toNat
  rgbToHex rr gg bb

/-- A paint style as assigned to `fillStyle` or `strokeStyle`: a plain
color string, an `rgba(r, g, b, a)` value (kept structured rather than as
its string rendering), or a linear gradient with its color stops. -/
inductive FillStyle where
  | color (s : String)
  | rgba (r g b : ℕ) (a : ℚ)
  | gradient (x0 y0 x1 y1 : ℚ) (stops : List (ℚ × String))
deriving DecidableEq

/-- Source `withAlpha(hex, a)`: the `rgba(...)` paint carrying the
channels of `hexToRgb hex` and alpha `clamp(a, 0, 1)`. -/
def withAlpha (hex : String) (a : ℚ) : FillStyle :=
  let c := hexToRgb hex
  .rgba c.r c.g c.b (clamp a 0 1)

/-- Source `easeOutCubic(t) = 1 - (1 - t)^3`. -/
def easeOutCubic (t : ℚ) : ℚ := 1 - (1 - t) ^ 3

/-- Source `easeInCubic(t) = t * t * t`. -/
def easeInCubic (t : ℚ) : ℚ := t * t * t

/-- Source `easeInOutCubic`. -/
def easeInOutCubic (t : ℚ) : ℚ :=
  if t < 1/2 then 4 * t * t * t else 1 - (-2 * t + 2) ^ 3 / 2

/-- Source `easeOutBack`, with `c1 = 1.70158` and `c3 = c1 + 1`. -/
def easeOutBack (t : ℚ) : ℚ :=
  let c1 : ℚ := 170158 / 100000
  let c3 : ℚ := c1 + 1
  1 + c3 * (t - 1) ^ 3 + c1 * (t - 1) ^ 2

/-- Splitting on the regex `/\r?\n/`, over the character list. -/
def splitLinesAux : List Char → List Char → List String
  | [], acc => [⟨acc.reverse⟩]
  | '\r' :: '\n' :: rest, acc => ⟨acc.reverse⟩ :: splitLinesAux rest []
  | '\n' :: rest, acc => ⟨acc.reverse⟩ :: splitLinesAux rest []
  | c :: rest, acc => splitLinesAux rest (c :: acc)

/-- JS `text.split(/\r?\n/)`. -/
def splitLines (s : String) : List String := splitLinesAux s.data []

/-- One 2D-canvas operation issued by the frame renderer, in issue order. -/
inductive Op where
  | clearRect (x y w h : ℚ)
  | setFill (style : FillStyle)
  | fillRect (x y w h : ℚ)
  | beginPath
  | moveTo (x y : ℚ)
  | lineTo (x y : ℚ)
  | setStroke (style : FillStyle)
  | setLineWidth (w : ℚ)
  | stroke
  | setTextAlign (s : String)
  | setTextBaseline (s : String)
  | setFont (s : String)
  | save
  | restore
  | translate (x y : ℚ)
  | scale (x y : ℚ)
  | setGlobalAlpha (a : ℚ)
  | fillText (s : String) (x y : ℚ)
deriving DecidableEq

/-- Source line 107: `progress = clamp(tMs / (durationSeconds * 1000), 0, 1)`. -/
def progressOf (s : Settings) (tMs : ℚ) : ℚ :=
  clamp (tMs / (s.durationSeconds * 1000)) 0 1

/-- The fade variant's text alpha:
`easeOutCubic(clamp(p*2,0,1)) * (1 - easeInCubic(clamp((p-0.5)*2,0,1)))`. -/
def fadeAlpha (p : ℚ) : ℚ :=
  let inP := easeOutCubic (clamp (p * 2) 0 1)
  let outP := 1 - easeInCubic (clamp ((p - 1/2) * 2) 0 1)
  inP * outP

/-- The typewriter variant's revealed text:
`text.slice(0, Math.max(0, Math.floor(p * (text.length + 6))))`. -/
def typewriterRevealed (text : String) (p : ℚ) : String :=
  let charsToShow : ℤ := ⌊p * ((text.length : ℚ) + 6)⌋
  ⟨text.data.take (max 0 charsToShow).toNat⟩

/-- The fixed accent color of the waves and the progress bar. -/
def accent : String := "#6ea8fe"

/-- The trace of one `drawLines` call. -/
def drawLinesOps (lines : List String) (x y lineHeight blockHeight sc a : ℚ) :
    List Op :=
  [Op.save, Op.translate x (y - blockHeight / 2 + lineHeight / 2),
    Op.scale sc sc, Op.setGlobalAlpha a]
  ++ lines.enum.map (fun pr => Op.fillText pr.2 0 ((pr.1 : ℚ) * lineHeight))
  ++ [Op.restore]

/-- The trace of decorative wave `i` (source lines 77-91). -/
def waveOps (sinq : ℚ → ℚ) (s : Settings) (tMs : ℚ) (i : ℕ) : List Op :=
  let phase := tMs / 1000 * (2/10 + (i : ℚ) * (5/100))
  let y := (s.height : ℚ) * (2/10 + (i : ℚ) * (2/10)) + sinq phase * 10
  let amplitude := 14 + (i : ℚ) * 6
  let xs : List ℕ := (List.range (s.width / 18 + 1)).map (fun k => 18 * k)
  [Op.beginPath]
  ++ xs.map (fun x =>
      let yy := y + sinq (phase + (x : ℚ) * (1/100)) * amplitude
      if x = 0 then Op.moveTo 0 yy else Op.lineTo (x : ℚ) yy)
  ++ [Op.setStroke (withAlpha accent (18/100 - (i : ℚ) * (4/100))),
      Op.setLineWidth (2 + (i : ℚ)), Op.stroke]

/-- Everything `drawFrame` paints before the animation switch: the clear,
the gradient background, the three waves, and the text paint setup. -/
def baseOps (sinq : ℚ → ℚ) (s : Settings) (tMs : ℚ) : List Op :=
  let w : ℚ := s.width
  let h : ℚ := s.height
  [Op.clearRect 0 0 w h,
    Op.setFill (.gradient 0 0 0 h [(0, s.background), (1, shade s.background (-12))]),
    Op.fillRect 0 0 w h]
  ++ ((List.range 3).map (waveOps sinq s tMs)).flatten
  ++ [Op.setFill (.color s.textColor), Op.setTextAlign ("center"),
      Op.setTextBaseline ("middle"),
      Op.setFont ("600 " ++ toString s.fontSize ++
        "px ui-sans-serif, system-ui, -apple-system, Segoe UI, Roboto")]

/-- The progress-bar ops (source lines 146-154): the track rect at alpha
`0.35` spanning `width - 2 × 24`, then a filled rect of width
`Math.floor(barWidth * p)`. -/
def progressBarOps (s : Settings) (p : ℚ) : List Op :=
  let h : ℚ := s.height
  let barWidth : ℚ := (s.width : ℚ) - 24 * 2
  [Op.setFill (withAlpha accent (35/100)),
    Op.fillRect 24 (h - 24 - 6) barWidth 6,
    Op.setFill (.color accent),
    Op.fillRect 24 (h - 24 - 6) ((⌊barWidth * p⌋ : ℤ) : ℚ) 6]

/-- The non-typewriter text block (source lines 139-144): save, alpha,
translate, scale, draw the lines, restore. -/
def mainBlockOps (s : Settings) (lines : List String)
    (a yOffset sc lineHeight blockHeight : ℚ) : List Op :=
  [Op.save, Op.setGlobalAlpha a,
    Op.translate ((s.width : ℚ) / 2) ((s.height : ℚ) / 2 + yOffset),
    Op.scale sc sc]
  ++ drawLinesOps lines 0 0 lineHeight blockHeight 1 1
  ++ [Op.restore]

/-- The full operation trace of one `drawFrame(ctx, tMs)` call. `sinq`
models the platform `Math.sin`. The typewriter branch draws its revealed
lines and returns; the other variants append the progress bar. -/
def drawFrame (sinq : ℚ → ℚ) (s : Settings) (tMs : ℚ) : List Op :=
  let lines := splitLines s.text
  let lineHeight : ℚ := (s.fontSize : ℚ) * (13/10)
  let blockHeight : ℚ := lineHeight * lines.length
  let p := progressOf s tMs
  baseOps sinq s tMs ++
    match s.animation with
    | .fade =>
        mainBlockOps s lines (fadeAlpha p) 0 1 lineHeight blockHeight
          ++ progressBarOps s p
    | .slide =>
        let direction : ℚ := if 0 < sinq (tMs * (2/1000)) then 1 else -1
        let q := easeInOutCubic p
        mainBlockOps s lines (9/10)
          ((1 - q) * direction * (s.height : ℚ) * (25/100)) 1
          lineHeight blockHeight
          ++ progressBarOps s p
    | .zoom =>
        let q := easeOutBack (min (p * (12/10)) 1)
        mainBlockOps s lines (95/100) 0 (9/10 + q * (2/10))
          lineHeight blockHeight
          ++ progressBarOps s p
    | .typewriter =>
        drawLinesOps (splitLines (typewriterRevealed s.text p))
          ((s.width : ℚ) / 2) ((s.height : ℚ) / 2) lineHeight blockHeight 1 1

/-- The persistent part of the 2D-context state (a simple concrete model
of the platform drawing capability, an out-of-scope collaborator). -/
structure GfxCore where
  fill : FillStyle
  strokeStyle : FillStyle
  lineWidth : ℚ
  alpha : ℚ
  dx : ℚ
  dy : ℚ
  sx : ℚ
  sy : ℚ
  textAlign : String
  textBaseline : String
  font : String

/-- A 2D context: persistent state, current path, save stack, and the
pixel surface. A pixel records the paint style and alpha it was last
painted with; `none` is a cleared pixel. -/
structure Ctx where
  core : GfxCore
  path : List (ℚ × ℚ)
  stack : List GfxCore
  surf : ℤ → ℤ → Option (FillStyle × ℚ)

/-- Device x-coordinate of a user-space x under the current transform. -/
def GfxCore.tx (g : GfxCore) (x : ℚ) : ℚ := g.dx + g.sx * x

/-- Device y-coordinate of a user-space y under the current transform. -/
def GfxCore.ty (g : GfxCore) (y : ℚ) : ℚ := g.dy + g.sy * y

/-- Does the integer pixel `(px, py)` lie in the device rectangle with
corner `(x0, y0)` and extents `(w, h)`? -/
def inRect (x0 y0 w h : ℚ) (px py : ℤ) : Bool :=
  decide (x0 ≤ (px : ℚ)) && decide ((px : ℚ) < x0 + w) &&
    decide (y0 ≤ (py : ℚ)) && decide ((py : ℚ) < y0 + h)

/-- Overwrite a rectangle of the surface with a pixel value. -/
def paintRect (c : Ctx) (x y w h : ℚ) (v : Option (FillStyle × ℚ)) :
    ℤ → ℤ → Option (FillStyle × ℚ) := fun px py =>
  if inRect (c.core.tx x) (c.core.ty y) (c.core.sx * w) (c.core.sy * h) px py
  then v else c.surf px py

/-- Overwrite a list of device pixels with a pixel value. -/
def paintPts (surf : ℤ → ℤ → Option (FillStyle × ℚ)) (pts : List (ℤ × ℤ))
    (v : Option (FillStyle × ℚ)) : ℤ → ℤ → Option (FillStyle × ℚ) :=
  fun px py => if (px, py) ∈ pts then v else surf px py

/-- Apply one canvas operation to a context. -/
def applyOp (c : Ctx) : Op → Ctx
  | .clearRect x y w h => { c with surf := paintRect c x y w h none }
  | .setFill f => { c with core := { c.core with fill := f } }
  | .fillRect x y w h =>
      { c with surf := paintRect c x y w h (some (c.core.fill, c.core.alpha)) }
  | .beginPath => { c with path := [] }
  | .moveTo x y => { c with path := c.path ++ [(c.core.tx x, c.core.ty y)] }
  | .lineTo x y => { c with path := c.path ++ [(c.core.tx x, c.core.ty y)] }
  | .setStroke f => { c with core := { c.core with strokeStyle := f } }
  | .setLineWidth w => { c with core := { c.core with lineWidth := w } }
  | .stroke =>
      let pts := c.path.map (fun pr => (⌊pr.1⌋, ⌊pr.2⌋))
      { c with surf := paintPts c.surf pts (some (c.core.strokeStyle, c.core.alpha)) }
  | .setTextAlign s => { c with core := { c.core with textAlign := s } }
  | .setTextBaseline s => { c with core := { c.core with textBaseline := s } }
  | .setFont s => { c with core := { c.core with font := s } }
  | .save => { c with stack := c.core :: c.stack }
  | .restore =>
      match c.stack with
      | [] => c
      | g :: rest => { c with core := g, stack := rest }
  | .translate a b =>
      let g := c.core
      { c with core := { g with dx := g.dx + g.sx * a, dy := g.dy + g.sy * b } }
  | .scale kx ky =>
      { c with core := { c.core with sx := c.core.sx * kx, sy := c.core.sy * ky } }
  | .setGlobalAlpha a => { c with core := { c.core with alpha := a } }
  | .fillText str x y =>
      let pts := (List.range str.length).map
        (fun i => (⌊c.core.tx x⌋ + (i : ℤ), ⌊c.core.ty y⌋))
      { c with surf := paintPts c.surf pts (some (c.core.fill, c.core.alpha)) }

/-- Default state of a fresh 2D context. -/
def initCore : GfxCore where
  fill := .color "#000000"
  strokeStyle := .color "#000000"
  lineWidth := 1
  alpha := 1
  dx := 0
  dy := 0
  sx := 1
  sy := 1
  textAlign := "start"
  textBaseline := "alphabetic"
  font := "10px sans-serif"

/-- Run the whole trace of one `drawFrame` call on a context. -/
def renderFrame (sinq : ℚ → ℚ) (s : Settings) (tMs : ℚ) (c : Ctx) : Ctx :=
  (drawFrame sinq s tMs).foldl applyOp c

/-- A freshly cleared surface: default context state, empty path and save
stack, and every pixel cleared. -/
def freshlyCleared (c : Ctx) : Prop :=
  c.core = initCore ∧ c.path = [] ∧ c.stack = [] ∧ ∀ px py, c.surf px py = none

/-- The canonical freshly cleared context. -/
def blankCtx : Ctx where
  core := initCore
  path := []
  stack := []
  surf := fun _ _ => none

/-- A thrown JS error: its `message` property and its `String(e)` form. -/
structure JsErr where
  message : String
  asString : String
deriving DecidableEq

/-- Source `e?.message || String(e)`. -/
def errDesc (e : JsErr) : String :=
  if e.message = "" then e.asString else e.message

/-- The `MediaRecorder.state` values the code distinguishes. -/
inductive RecState where
  | inactive
  | started
deriving DecidableEq

/-- The component's recording-related state: the React state flags plus
the refs (`recorderRef`, `chunksRef`, `rafRef`, `startTimeRef`). -/
structure Session where
  recordingFlag : Bool
  blobUrl : Option String
  errorMsg : Option String
  progressMs : ℚ
  startTime : ℚ
  recorder : Option RecState
  chunks : List (List ℕ)
  rafPending : Bool
deriving DecidableEq

/-- The component's initial session state. -/
def idleSession : Session where
  recordingFlag := false
  blobUrl := none
  errorMsg := none
  progressMs := 0
  startTime := 0
  recorder := none
  chunks := []
  rafPending := false

/-- The fallible environment one `startRecording` call runs against:
whether the canvas ref is non-null, whether the stream setup
(`canvas.captureStream` at line 164 or the `MediaRecorder.isTypeSupported`
probe at line 174 — both outside the `try`) throws, whether
`new MediaRecorder` throws, whether `mr.start(100)` throws, and the
current monotonic time. -/
structure StartEnv where
  canvasAvailable : Bool
  streamResult : Except JsErr Unit
  ctorResult : Except JsErr Unit
  startResult : Except JsErr Unit
  now : ℚ

/-- Source `startRecording` (lines 157-218), with the platform effects
supplied by `env`: clear error and blob URL; bail out if the canvas is
absent; run the stream setup — a throw there happens before the `try` and
escapes the function uncaught, returned as the second component with no
error recorded; then, inside the `try`, construct the recorder, reset the
chunk buffer, record the start time, set the recording flag, start the
recorder, and schedule the first tick; on a throw inside the `try`,
record the error description and clear the recording flag. -/
def startRecording (env : StartEnv) (s : Session) : Session × Option JsErr :=
  let s1 := { s with errorMsg := none, blobUrl := none }
  if env.canvasAvailable = false then (s1, none)
  else
    match env.streamResult with
    | .error e => (s1, some e)
    | .ok _ =>
        match env.ctorResult with
        | .error e =>
            ({ s1 with errorMsg := some (errDesc e), recordingFlag := false }, none)
        | .ok _ =>
            let s2a := { s1 with recorder := some RecState.inactive, chunks := ([] : List (List ℕ)) }
            let s2 := { s2a with startTime := env.now, progressMs := 0 }
            match env.startResult with
            | .error e =>
                ({ s2 with errorMsg := some (errDesc e), recordingFlag := false }, none)
            | .ok _ =>
                let s3 := { s2 with recorder := some RecState.started }
                ({ s3 with recordingFlag := true, rafPending := true }, none)

/-- Source `stopRecording` (lines 220-229): cancel any pending tick, stop
the recorder if it is not inactive, clear the recording flag. -/
def stopRecording (s : Session) : Session :=
  let s1 := { s with rafPending := false }
  match s1.recorder with
  | some st =>
      if st ≠ .inactive
      then { s1 with recorder := some RecState.inactive, recordingFlag := false }
      else { s1 with recordingFlag := false }
  | none => { s1 with recordingFlag := false }

/-- Whether the session's recorder is already inactive (or absent). -/
def recorderIdle (s : Session) : Prop :=
  s.recorder = none ∨ s.recorder = some RecState.inactive

/-- The `ondataavailable` handler (lines 181-183): append `e.data` when it
is present and non-empty. `none` models a null `e.data`. -/
def handleData (chunks : List (List ℕ)) (d : Option (List ℕ)) :
    List (List ℕ) :=
  match d with
  | some bytes => if 0 < bytes.length then chunks ++ [bytes] else chunks
  | none => chunks

/-- The chunk buffer after a session's sequence of data events. -/
def finalChunks (events : List (Option (List ℕ))) : List (List ℕ) :=
  events.foldl handleData []

/-- The assembled artifact: the concatenation of the buffered fragments
(the `new Blob(chunksRef.current, ...)` of the `onstop` handler). -/
def assembled (events : List (Option (List ℕ))) : List ℕ :=
  (finalChunks events).flatten

/-- A stand-in deterministic `Math.sin` used for concrete evaluations. -/
def sinZero : ℚ → ℚ := fun _ => 0

/-- ASCII lowercase normalization of a character. -/
def toLowerChar (c : Char) : Char :=
  if 65 ≤ c.toNat && c.toNat ≤ 90 then Char.ofNat (c.toNat + 32) else c

/-- Modelled from the spec's words for the C4 claim: a string matching
`#RRGGBB` case-insensitively, with the leading `#` required. -/
def specMatchesHashForm (s : String) : Bool :=
  match s.data with
  | '#' :: [a, b, c, d, e, f] =>
      isHexAF a && isHexAF b && isHexAF c && isHexAF d && isHexAF e && isHexAF f
  | _ => false

/-- A small typewriter settings value used for concrete evaluation. -/
def twSettings : Settings where
  width := 90
  height := 50
  fps := 30
  durationSeconds := 2
  background := "#102030"
  textColor := "#ffffff"
  text := "Hi"
  fontSize := 10
  animation := .typewriter

/-- The same small settings with the fade variant. -/
def fadeSettings : Settings := { twSettings with animation := .fade }



/-- Helper: an environment whose recorder construction throws, used for a
concrete witness. -/
def failEnv : StartEnv where
  canvasAvailable := true
  streamResult := Except.ok ()
  ctorResult := Except.error ⟨"boom", "Error: boom"⟩
  startResult := Except.ok ()
  now := 0

/-- Helper: an environment whose stream setup (`captureStream` or the
`isTypeSupported` probe) throws, used for a concrete counterexample. -/
def streamFailEnv : StartEnv where
  canvasAvailable := true
  streamResult := Except.error ⟨"nostream", "Error: nostream"⟩
  ctorResult := Except.ok ()
  startResult := Except.ok ()
  now := 0

/-- Helper: equality of characters follows from equality of code points. -/
theorem char_eq_of_toNat {a b : Char} (h : a.toNat = b.toNat) : a = b :=
  Char.eq_of_val_eq (UInt32.toNat.inj h)

/-- Helper: the length of the revealed typewriter text, in closed form. -/
theorem typewriterRevealed_length (text : String) (p : ℚ) :
    (typewriterRevealed text p).length =
      min (max 0 ⌊p * ((text.length : ℚ) + 6)⌋).toNat text.data.length := by
  unfold typewriterRevealed
  exact List.length_take _ _

/-- C5: with `animation = typewriter`, the revealed string
`text.slice(0, max(0, floor(progress × (len(text) + 6))))` has length
non-decreasing in `progress`, equal to `len(text)` at `progress = 1`, and
never exceeding `len(text)`. -/
theorem C5_typewriter_reveal (text : String) :
    (∀ p q : ℚ, p ≤ q →
      (typewriterRevealed text p).length ≤ (typewriterRevealed text q).length) ∧
    (typewriterRevealed text 1).length = text.length ∧
    (∀ p : ℚ, (typewriterRevealed text p).length ≤ text.length) := by
  have hlen : text.length = text.data.length := rfl
  refine ⟨?_, ?_, ?_⟩
  · intro p q hpq
    rw [typewriterRevealed_length, typewriterRevealed_length]
    have hmul : p * ((text.length : ℚ) + 6) ≤ q * ((text.length : ℚ) + 6) :=
      mul_le_mul_of_nonneg_right hpq (by positivity)
    have hfloor := Int.floor_mono hmul
    have hmax : max 0 ⌊p * ((text.length : ℚ) + 6)⌋ ≤
        max 0 ⌊q * ((text.length : ℚ) + 6)⌋ := max_le_max le_rfl hfloor
    exact min_le_min (Int.toNat_le_toNat hmax) le_rfl
  · rw [typewriterRevealed_length]
    have hcast : (text.length : ℚ) + 6 = ((text.length + 6 : ℕ) : ℚ) := by
      push_cast
      ring
    rw [one_mul, hcast, Int.floor_natCast]
    omega
  · intro p
    rw [typewriterRevealed_length, hlen]
    exact min_le_right _ _

/-- Witness for C5 at `text = "Hi"`, `p = 0 ≤ q = 1`. -/
theorem C5_typewriter_reveal_witness :
    (typewriterRevealed "Hi" 0).length ≤ (typewriterRevealed "Hi" 1).length :=
  (C5_typewriter_reveal "Hi").1 0 1 (by norm_num)

/-- C6: for fixed settings with positive duration, the renderer's progress
value `clamp(elapsedMs / (durationSeconds × 1000), 0, 1)` is non-decreasing
in `elapsedMs` and equals exactly `1` whenever
`elapsedMs ≥ durationSeconds × 1000`. -/
theorem C6_progress_monotone_saturating (s : Settings)
    (hd : 0 < s.durationSeconds) :
    (∀ t1 t2 : ℚ, t1 ≤ t2 → progressOf s t1 ≤ progressOf s t2) ∧
    (∀ t : ℚ, s.durationSeconds * 1000 ≤ t → progressOf s t = 1) := by
  have hk : (0 : ℚ) < s.durationSeconds * 1000 := by positivity
  constructor
  · intro t1 t2 h
    have hdiv : t1 / (s.durationSeconds * 1000) ≤ t2 / (s.durationSeconds * 1000) := by
      gcongr
    unfold progressOf clamp
    exact max_le_max le_rfl (min_le_min le_rfl hdiv)
  · intro t ht
    have h1 : (1 : ℚ) ≤ t / (s.durationSeconds * 1000) := by
      rw [le_div_iff₀ hk]
      linarith
    unfold progressOf clamp
    rw [min_eq_left h1]
    exact max_eq_right (by norm_num)

/-- Witness for C6 at `DEFAULTS`, `t = 6000`. -/
theorem C6_progress_monotone_saturating_witness : progressOf DEFAULTS 6000 = 1 :=
  (C6_progress_monotone_saturating DEFAULTS (by norm_num [DEFAULTS])).2 6000
    (by norm_num [DEFAULTS])

/-- C7: with `animation = fade`, the text alpha is exactly `0` at
`progress = 0` and `progress = 1` (hence within `1e-6` of `0`), and
`progress = 0.5` is a global — in particular local — maximum point of the
alpha curve. -/
theorem C7_fade_boundary :
    fadeAlpha 0 = 0 ∧ fadeAlpha 1 = 0 ∧
    ∀ p : ℚ, fadeAlpha p ≤ fadeAlpha (1/2) := by
  refine ⟨?_, ?_, ?_⟩
  · norm_num [fadeAlpha, clamp, easeOutCubic, easeInCubic]
  · norm_num [fadeAlpha, clamp, easeOutCubic, easeInCubic]
  · intro p
    have hhalf : fadeAlpha (1/2) = 1 := by
      norm_num [fadeAlpha, clamp, easeOutCubic, easeInCubic]
    rw [hhalf]
    unfold fadeAlpha
    have ha0 : (0 : ℚ) ≤ clamp (p * 2) 0 1 := le_max_left _ _
    have ha1 : clamp (p * 2) 0 1 ≤ 1 := max_le (by norm_num) (min_le_left _ _)
    have hb0 : (0 : ℚ) ≤ clamp ((p - 1/2) * 2) 0 1 := le_max_left _ _
    have hb1 : clamp ((p - 1/2) * 2) 0 1 ≤ 1 := max_le (by norm_num) (min_le_left _ _)
    set a := clamp (p * 2) 0 1
    set b := clamp ((p - 1/2) * 2) 0 1
    have e1 : easeOutCubic a ≤ 1 := by
      unfold easeOutCubic
      nlinarith [pow_nonneg (show (0:ℚ) ≤ 1 - a by linarith) 3]
    have f2 : 0 ≤ 1 - easeInCubic b := by
      unfold easeInCubic
      nlinarith [mul_nonneg hb0 hb0]
    have f1 : 1 - easeInCubic b ≤ 1 := by
      unfold easeInCubic
      nlinarith [mul_nonneg (mul_nonneg hb0 hb0) hb0]
    exact mul_le_one₀ e1 f2 f1

/-- Helper: the chunk buffer fold equals the filter of the emitted data. -/
theorem foldl_handleData (events : List (Option (List ℕ))) :
    ∀ acc : List (List ℕ),
      events.foldl handleData acc =
        acc ++ (events.filterMap id).filter (fun bb => decide (0 < bb.length)) := by
  induction events with
  | nil => intro acc; simp
  | cons e rest ih =>
      intro acc
      cases e with
      | none => simp [handleData, ih]
      | some bytes =>
          by_cases hb : 0 < bytes.length
          · simp [handleData, hb, ih, List.append_assoc]
          · simp [handleData, hb, ih]

/-- C10: every fragment the data-available handler appends has size `> 0`
(zero-size fragments are discarded), the final buffer is exactly the
non-empty fragments in emission order, and the assembled artifact is their
concatenation in that order. -/
theorem C10_nonempty_chunks (events : List (Option (List ℕ))) :
    (∀ c ∈ finalChunks events, 0 < c.length) ∧
    finalChunks events =
      (events.filterMap id).filter (fun bb => decide (0 < bb.length)) ∧
    assembled events =
      ((events.filterMap id).filter (fun bb => decide (0 < bb.length))).flatten := by
  have h : finalChunks events =
      (events.filterMap id).filter (fun bb => decide (0 < bb.length)) := by
    unfold finalChunks
    rw [foldl_handleData]
    simp
  refine ⟨?_, h, ?_⟩
  · intro c hc
    rw [h] at hc
    have h2 := (List.mem_filter.mp hc).2
    simpa using h2
  · unfold assembled
    rw [h]

/-- Witness for C10 on the event list `[some [5], some [], none]`. -/
theorem C10_nonempty_chunks_witness : 0 < ([5] : List ℕ).length :=
  (C10_nonempty_chunks [some [5], some [], none]).1 [5] (by decide)

/-- C9: `stop()` when the session is not running (no pending tick, recorder
inactive or absent, recording flag already down) leaves the state
unchanged, and `stopRecording` is idempotent, so a second consecutive call
is a no-op. -/
theorem C9_stop_idempotent :
    (∀ s : Session, s.rafPending = false → s.recordingFlag = false →
      recorderIdle s → stopRecording s = s) ∧
    (∀ s : Session, stopRecording (stopRecording s) = stopRecording s) := by
  constructor
  · intro s h1 h2 h3
    simp only [recorderIdle] at h3
    cases s
    rcases h3 with h | h <;> simp_all [stopRecording]
  · intro s
    cases s with
    | mk rcf blob err pm st rc ch raf =>
        rcases rc with _ | st'
        · simp [stopRecording]
        · rcases st' <;> simp [stopRecording]

/-- Witness for C9: stopping the idle session changes nothing. -/
theorem C9_stop_idempotent_witness : stopRecording idleSession = idleSession :=
  C9_stop_idempotent.1 idleSession rfl rfl (Or.inl rfl)

/-- Counterexample to C3 as stated: when stream setup throws (it runs
outside the `try`, lines 164 and 174), the exception escapes
`startRecording` uncaught and no error description is recorded — the
session does not transition to a failed state with a captured message. -/
theorem C3_counterexample :
    (startRecording streamFailEnv idleSession).1.errorMsg = none ∧
    (startRecording streamFailEnv idleSession).2 =
      some ⟨"nostream", "Error: nostream"⟩ ∧
    (startRecording streamFailEnv idleSession).1.recordingFlag = false ∧
    (startRecording streamFailEnv idleSession).1.rafPending = false :=
  ⟨rfl, rfl, rfl, rfl⟩

/-- C3 (amended): if encoder setup — the recorder construction or
`mr.start` inside the `try` — throws during `startRecording`, the session
ends with the thrown error's description recorded, the recording flag
false, no render tick scheduled, and no uncaught exception; if instead the
stream setup throws (it runs before the `try`), the exception escapes the
call uncaught with no error description recorded, and still no partial
running state is entered: the recording flag stays false and no tick is
scheduled. -/
theorem C3_encoder_failure_goes_failed (env : StartEnv) (s : Session)
    (hc : env.canvasAvailable = true) (hraf : s.rafPending = false)
    (hrec : s.recordingFlag = false) :
    (∀ e : JsErr, env.streamResult = Except.ok () →
      env.ctorResult = Except.error e →
      (startRecording env s).1.errorMsg = some (errDesc e) ∧
      (startRecording env s).1.recordingFlag = false ∧
      (startRecording env s).1.rafPending = false ∧
      (startRecording env s).2 = none) ∧
    (∀ e : JsErr, env.streamResult = Except.ok () →
      env.ctorResult = Except.ok () → env.startResult = Except.error e →
      (startRecording env s).1.errorMsg = some (errDesc e) ∧
      (startRecording env s).1.recordingFlag = false ∧
      (startRecording env s).1.rafPending = false ∧
      (startRecording env s).2 = none) ∧
    (∀ e : JsErr, env.streamResult = Except.error e →
      (startRecording env s).2 = some e ∧
      (startRecording env s).1.errorMsg = none ∧
      (startRecording env s).1.recordingFlag = false ∧
      (startRecording env s).1.rafPending = false) := by
  refine ⟨?_, ?_, ?_⟩
  · intro e h0 h1
    simp [startRecording, hc, h0, h1, hraf]
  · intro e h0 h1 h2
    simp [startRecording, hc, h0, h1, h2, hraf]
  · intro e h0
    simp [startRecording, hc, h0, hraf, hrec]

/-- Witness for C3: a failing recorder construction on the idle session. -/
theorem C3_encoder_failure_goes_failed_witness :
    (startRecording failEnv idleSession).1.errorMsg =
      some (errDesc ⟨"boom", "Error: boom"⟩) ∧
    (startRecording failEnv idleSession).1.recordingFlag = false ∧
    (startRecording failEnv idleSession).1.rafPending = false ∧
    (startRecording failEnv idleSession).2 = none :=
  (C3_encoder_failure_goes_failed failEnv idleSession rfl rfl rfl).1
    ⟨"boom", "Error: boom"⟩ rfl rfl

/-- Helper: the trace of `drawLines` ends with its restore. -/
theorem drawLinesOps_eq_concat (lines : List String) (x y lh bh sc a : ℚ) :
    ∃ q, drawLinesOps lines x y lh bh sc a = q ++ [Op.restore] :=
  ⟨_, rfl⟩

/-- Helper: for every non-typewriter variant, the frame trace is some
prefix followed by exactly the progress-bar operations. -/
theorem drawFrame_bar_concat (sinq : ℚ → ℚ) (s : Settings) (tMs : ℚ)
    (h : s.animation ≠ AnimationType.typewriter) :
    ∃ q, drawFrame sinq s tMs = q ++ progressBarOps s (progressOf s tMs) := by
  cases ha : s.animation with
  | typewriter => exact absurd ha h
  | fade =>
      exact ⟨_, by simp only [drawFrame, ha]; rw [← List.append_assoc]⟩
  | slide =>
      exact ⟨_, by simp only [drawFrame, ha]; rw [← List.append_assoc]⟩
  | zoom =>
      exact ⟨_, by simp only [drawFrame, ha]; rw [← List.append_assoc]⟩

/-- Helper: the typewriter variant's frame trace ends with the restore of
its `drawLines` call — it returns before the progress-bar code. -/
theorem drawFrame_typewriter_concat (sinq : ℚ → ℚ) (s : Settings) (tMs : ℚ)
    (h : s.animation = AnimationType.typewriter) :
    ∃ q, drawFrame sinq s tMs = q ++ [Op.restore] := by
  exact ⟨_, by simp only [drawFrame, h, drawLinesOps]; rw [← List.append_assoc]⟩

/-- C1 (amended): for every variant other than typewriter, the frame trace
ends with the progress-bar operations — the low-alpha track rect spanning
`width - 2 × 24` overlaid by a filled rect of width
`floor(progress × trackWidth)` (see `progressBarOps`); the typewriter
variant instead returns right after drawing its revealed lines, ending in
a restore, and paints no progress bar. -/
theorem C1_progress_bar (sinq : ℚ → ℚ) (s : Settings) (tMs : ℚ) :
    (s.animation ≠ AnimationType.typewriter →
      ∃ q, drawFrame sinq s tMs = q ++ progressBarOps s (progressOf s tMs)) ∧
    (s.animation = AnimationType.typewriter →
      ∃ q, drawFrame sinq s tMs = q ++ [Op.restore]) :=
  ⟨drawFrame_bar_concat sinq s tMs, drawFrame_typewriter_concat sinq s tMs⟩

/-- Witness for C1 at the default settings (fade variant). -/
theorem C1_progress_bar_witness :
    ∃ q, drawFrame sinZero DEFAULTS 0 =
      q ++ progressBarOps DEFAULTS (progressOf DEFAULTS 0) :=
  (C1_progress_bar sinZero DEFAULTS 0).1 (by decide)

/-- Counterexample to C1 as stated: with the typewriter variant the frame
trace ends in a restore, not in progress-bar rectangles; and for the fade
variant at `tMs = 500` the final filled rect has width `10`, which is not
`progress × trackWidth = 42 × 1/4 = 10.5` — the code floors it. -/
theorem C1_counterexample :
    (drawFrame sinZero twSettings 500).getLast? = some Op.restore ∧
    (drawFrame sinZero fadeSettings 500).getLast? =
      some (Op.fillRect 24 20 10 6) ∧
    (10 : ℚ) ≠ ((fadeSettings.width : ℚ) - 24 * 2) * progressOf fadeSettings 500 := by
  have hp : progressOf fadeSettings 500 = 1/4 := by
    simp [progressOf, clamp, fadeSettings, twSettings]
    norm_num
  refine ⟨?_, ?_, ?_⟩
  · obtain ⟨q, hq⟩ := drawFrame_typewriter_concat sinZero twSettings 500 rfl
    rw [hq]
    exact List.getLast?_concat _
  · obtain ⟨q, hq⟩ := drawFrame_bar_concat sinZero fadeSettings 500 (by decide)
    rw [hq, hp]
    have hbar : progressBarOps fadeSettings (1/4) =
        [Op.setFill (withAlpha accent (35/100)), Op.fillRect 24 20 42 6,
          Op.setFill (FillStyle.color accent)] ++ [Op.fillRect 24 20 10 6] := by
      simp [progressBarOps, fadeSettings, twSettings]
      norm_num
    rw [hbar, ← List.append_assoc]
    exact List.getLast?_concat _
  · rw [hp]
    norm_num [fadeSettings, twSettings]

/-- C2: for fixed settings and elapsed time, running the frame trace on
any two freshly cleared surfaces produces identical results — the emitted
operation sequence is a function of `(settings, tMs)` alone, so repeated
invocations are pixel-identical. -/
theorem C2_render_deterministic (sinq : ℚ → ℚ) (s : Settings) (tMs : ℚ)
    (c1 c2 : Ctx) (h1 : freshlyCleared c1) (h2 : freshlyCleared c2) :
    renderFrame sinq s tMs c1 = renderFrame sinq s tMs c2 := by
  have hceq : c1 = c2 := by
    simp only [freshlyCleared] at h1 h2
    obtain ⟨ha1, hb1, hc1, hd1⟩ := h1
    obtain ⟨ha2, hb2, hc2, hd2⟩ := h2
    have hsurf : c1.surf = c2.surf := by
      funext px py
      rw [hd1 px py, hd2 px py]
    cases c1
    cases c2
    simp_all
  rw [hceq]

/-- Witness for C2 on the canonical fresh context. -/
theorem C2_render_deterministic_witness :
    renderFrame sinZero DEFAULTS 0 blankCtx = renderFrame sinZero DEFAULTS 0 blankCtx :=
  C2_render_deterministic sinZero DEFAULTS 0 blankCtx blankCtx
    ⟨rfl, rfl, rfl, fun _ _ => rfl⟩ ⟨rfl, rfl, rfl, fun _ _ => rfl⟩

/-- Helper: a hex-class character has value below 16. -/
theorem hexVal_lt_16 {c : Char} (h : isHexAF c = true) : hexVal c < 16 := by
  simp only [isHexAF, Bool.or_eq_true, Bool.and_eq_true, decide_eq_true_eq] at h
  unfold hexVal
  split_ifs with h1 h2 <;>
    simp only [Bool.and_eq_true, decide_eq_true_eq, Bool.not_eq_true,
      Bool.and_eq_false_iff, decide_eq_false_iff_not, not_le] at h1 <;>
    omega

/-- Helper: a parsed two-hex-digit group is at most 255. -/
theorem hexPair_le_255 {a b : Char} (ha : isHexAF a = true)
    (hb : isHexAF b = true) : hexPair a b ≤ 255 := by
  have h1 := hexVal_lt_16 ha
  have h2 := hexVal_lt_16 hb
  unfold hexPair
  omega

/-- Helper: inversion for the regex-body parse — either the body does not
match and the fallback `{0,0,0}` is returned, or the list is exactly six
hex-class characters and the three parsed pairs are returned. -/
theorem parseHexBody_cases (m : List Char) :
    (matchesBody m = false ∧ parseHexBody m = ⟨0, 0, 0⟩) ∨
    (∃ a b c d e f, m = [a, b, c, d, e, f] ∧
      isHexAF a = true ∧ isHexAF b = true ∧ isHexAF c = true ∧
      isHexAF d = true ∧ isHexAF e = true ∧ isHexAF f = true ∧
      matchesBody m = true ∧
      parseHexBody m = ⟨hexPair a b, hexPair c d, hexPair e f⟩) := by
  rcases m with _ | ⟨a, _ | ⟨b, _ | ⟨c, _ | ⟨d, _ | ⟨e, _ | ⟨f, _ | ⟨g, rest⟩⟩⟩⟩⟩⟩⟩
  · left; exact ⟨rfl, rfl⟩
  · left; exact ⟨rfl, rfl⟩
  · left; exact ⟨rfl, rfl⟩
  · left; exact ⟨rfl, rfl⟩
  · left; exact ⟨rfl, rfl⟩
  · left; exact ⟨rfl, rfl⟩
  case cons.cons.cons.cons.cons.cons.nil =>
    cases hg : (isHexAF a && isHexAF b && isHexAF c && isHexAF d && isHexAF e && isHexAF f)
    · left
      exact ⟨by simp [matchesBody, hg], by simp [parseHexBody, hg]⟩
    · right
      have hg2 := hg
      simp only [Bool.and_eq_true] at hg2
      obtain ⟨⟨⟨⟨⟨g1, g2⟩, g3⟩, g4⟩, g5⟩, g6⟩ := hg2
      exact ⟨a, b, c, d, e, f, rfl, g1, g2, g3, g4, g5, g6,
        by simp [matchesBody, hg], by simp [parseHexBody, hg]⟩
  · left; exact ⟨rfl, rfl⟩

/-- Helper: stripping the optional hash leaves a list whose head is not
`#` unchanged. -/
theorem stripHash_ne (c : Char) (l : List Char) (h : c ≠ '#') :
    stripHash (c :: l) = c :: l := by
  unfold stripHash
  split
  · next heq => injection heq with hh ht; exact absurd hh h
  · rfl

/-- Helper: a hex-class character is not the hash sign. -/
theorem isHexAF_ne_hash {c : Char} (h : isHexAF c = true) : c ≠ '#' := by
  intro heq
  rw [heq] at h
  simp [isHexAF] at h

/-- C4 (amended): `hexToRgb` returns channels in `[0, 255]`; every input
that does not match the source regex `/^#?(..){3}$/i` — the `#` being
optional — yields `{0,0,0}`; and every matching input (with or without the
leading `#`) yields the three parsed channel values. -/
theorem C4_hex_lenient_fallback :
    (∀ s : String,
      (hexToRgb s).r ≤ 255 ∧ (hexToRgb s).g ≤ 255 ∧ (hexToRgb s).b ≤ 255) ∧
    (∀ s : String, matchesOptHexForm s = false → hexToRgb s = ⟨0, 0, 0⟩) ∧
    (∀ c1 c2 c3 c4 c5 c6 : Char,
      isHexAF c1 = true → isHexAF c2 = true → isHexAF c3 = true →
      isHexAF c4 = true → isHexAF c5 = true → isHexAF c6 = true →
      hexToRgb ⟨'#' :: [c1, c2, c3, c4, c5, c6]⟩ =
        ⟨hexPair c1 c2, hexPair c3 c4, hexPair c5 c6⟩ ∧
      hexToRgb ⟨[c1, c2, c3, c4, c5, c6]⟩ =
        ⟨hexPair c1 c2, hexPair c3 c4, hexPair c5 c6⟩) := by
  refine ⟨?_, ?_, ?_⟩
  · intro s
    rcases parseHexBody_cases (stripHash s.data) with ⟨hm, he⟩ |
      ⟨a, b, c, d, e, f, hm, g1, g2, g3, g4, g5, g6, hmt, he⟩
    · unfold hexToRgb
      rw [he]
      refine ⟨by norm_num, by norm_num, by norm_num⟩
    · unfold hexToRgb
      rw [he]
      exact ⟨hexPair_le_255 g1 g2, hexPair_le_255 g3 g4, hexPair_le_255 g5 g6⟩
  · intro s h
    unfold matchesOptHexForm at h
    rcases parseHexBody_cases (stripHash s.data) with ⟨hm, he⟩ |
      ⟨a, b, c, d, e, f, hm, g1, g2, g3, g4, g5, g6, hmt, he⟩
    · unfold hexToRgb
      rw [he]
    · rw [hmt] at h
      exact absurd h (by simp)
  · intro c1 c2 c3 c4 c5 c6 h1 h2 h3 h4 h5 h6
    constructor
    · show parseHexBody (stripHash ('#' :: [c1, c2, c3, c4, c5, c6])) = _
      rw [show stripHash ('#' :: [c1, c2, c3, c4, c5, c6]) =
        [c1, c2, c3, c4, c5, c6] from rfl]
      simp [parseHexBody, h1, h2, h3, h4, h5, h6]
    · show parseHexBody (stripHash [c1, c2, c3, c4, c5, c6]) = _
      rw [stripHash_ne c1 _ (isHexAF_ne_hash h1)]
      simp [parseHexBody, h1, h2, h3, h4, h5, h6]

/-- Witness for C4 on concrete inputs: the malformed `"zz"` falls back to
black, and `"#1a2B3c"` parses to its channels. -/
theorem C4_hex_lenient_fallback_witness :
    hexToRgb "zz" = ⟨0, 0, 0⟩ ∧
    hexToRgb ⟨'#' :: ['1', 'a', '2', 'B', '3', 'c']⟩ =
      ⟨hexPair '1' 'a', hexPair '2' 'B', hexPair '3' 'c'⟩ :=
  ⟨C4_hex_lenient_fallback.2.1 "zz" (by decide),
    (C4_hex_lenient_fallback.2.2 '1' 'a' '2' 'B' '3' 'c'
      (by decide) (by decide) (by decide) (by decide) (by decide) (by decide)).1⟩

/-- Counterexample to C4 as stated: `"aabbcc"` does not match `#RRGGBB`
(no leading `#`), yet `hexToRgb` parses it instead of returning `{0,0,0}`
— the source regex makes the `#` optional. -/
theorem C4_counterexample :
    specMatchesHashForm "aabbcc" = false ∧
    hexToRgb "aabbcc" = ⟨170, 187, 204⟩ ∧
    hexToRgb "aabbcc" ≠ ⟨0, 0, 0⟩ := by
  refine ⟨by decide, by decide, by decide⟩

/-- Helper: `toHex` of a two-hex-digit value is the two digit characters,
zero-padded. -/
theorem pad2_digits : ∀ v1 < 16, ∀ v2 < 16,
    toHex (16 * v1 + v2) = ⟨[Nat.digitChar v1, Nat.digitChar v2]⟩ := by decide

/-- Helper: on hex-class characters, printing the parsed digit value gives
the lowercase normalization of the character. -/
theorem digitChar_toLower {c : Char} (h : isHexAF c = true) :
    Nat.digitChar (hexVal c) = toLowerChar c := by
  have key : ∀ n < 128,
      (((48 ≤ n ∧ n ≤ 57) ∨ (97 ≤ n ∧ n ≤ 102)) ∨ (65 ≤ n ∧ n ≤ 70)) →
      Nat.digitChar (hexVal (Char.ofNat n)) = toLowerChar (Char.ofNat n) := by
    decide
  simp only [isHexAF, Bool.or_eq_true, Bool.and_eq_true, decide_eq_true_eq] at h
  have hlt : c.toNat < 128 := by
    rcases h with (⟨u1, u2⟩ | ⟨u1, u2⟩) | ⟨u1, u2⟩ <;> omega
  have hk := key c.toNat hlt h
  rwa [Char.ofNat_toNat] at hk

/-- C8: for every color string of `#` followed by six hex digits,
re-encoding the parsed channels with `rgbToHex` returns the same string
normalized to lowercase, two digits per channel, with the leading `#`. -/
theorem C8_color_roundtrip (c1 c2 c3 c4 c5 c6 : Char)
    (h1 : isHexAF c1 = true) (h2 : isHexAF c2 = true) (h3 : isHexAF c3 = true)
    (h4 : isHexAF c4 = true) (h5 : isHexAF c5 = true) (h6 : isHexAF c6 = true) :
    rgbToHex (hexToRgb ⟨'#' :: [c1, c2, c3, c4, c5, c6]⟩).r
        (hexToRgb ⟨'#' :: [c1, c2, c3, c4, c5, c6]⟩).g
        (hexToRgb ⟨'#' :: [c1, c2, c3, c4, c5, c6]⟩).b =
      ⟨'#' :: [toLowerChar c1, toLowerChar c2, toLowerChar c3, toLowerChar c4,
        toLowerChar c5, toLowerChar c6]⟩ := by
  have hx : hexToRgb ⟨'#' :: [c1, c2, c3, c4, c5, c6]⟩ =
      ⟨hexPair c1 c2, hexPair c3 c4, hexPair c5 c6⟩ := by
    show parseHexBody (stripHash ('#' :: [c1, c2, c3, c4, c5, c6])) = _
    rw [show stripHash ('#' :: [c1, c2, c3, c4, c5, c6]) =
      [c1, c2, c3, c4, c5, c6] from rfl]
    simp [parseHexBody, h1, h2, h3, h4, h5, h6]
  rw [hx]
  have t12 : toHex (hexPair c1 c2) =
      ⟨[Nat.digitChar (hexVal c1), Nat.digitChar (hexVal c2)]⟩ := by
    unfold hexPair
    exact pad2_digits _ (hexVal_lt_16 h1) _ (hexVal_lt_16 h2)
  have t34 : toHex (hexPair c3 c4) =
      ⟨[Nat.digitChar (hexVal c3), Nat.digitChar (hexVal c4)]⟩ := by
    unfold hexPair
    exact pad2_digits _ (hexVal_lt_16 h3) _ (hexVal_lt_16 h4)
  have t56 : toHex (hexPair c5 c6) =
      ⟨[Nat.digitChar (hexVal c5), Nat.digitChar (hexVal c6)]⟩ := by
    unfold hexPair
    exact pad2_digits _ (hexVal_lt_16 h5) _ (hexVal_lt_16 h6)
  unfold rgbToHex
  rw [t12, t34, t56, digitChar_toLower h1, digitChar_toLower h2,
    digitChar_toLower h3, digitChar_toLower h4, digitChar_toLower h5,
    digitChar_toLower h6]
  rfl

/-- Witness for C8 at the mixed-case color `"#AaBbCc"`. -/
theorem C8_color_roundtrip_witness :
    rgbToHex (hexToRgb ⟨'#' :: ['A', 'a', 'B', 'b', 'C', 'c']⟩).r
        (hexToRgb ⟨'#' :: ['A', 'a', 'B', 'b', 'C', 'c']⟩).g
        (hexToRgb ⟨'#' :: ['A', 'a', 'B', 'b', 'C', 'c']⟩).b =
      ⟨'#' :: [toLowerChar 'A', toLowerChar 'a', toLowerChar 'B',
        toLowerChar 'b', toLowerChar 'C', toLowerChar 'c']⟩ :=
  C8_color_roundtrip 'A' 'a' 'B' 'b' 'C' 'c'
    (by decide) (by decide) (by decide) (by decide) (by decide) (by decide)

end VideoGen
